import Mathlib

/-!
Verification of the ingestion engine of `ammersense_weather_ai`.

The development shallowly embeds the two source files:
- `src/ingest/zebrafell_scraper.py` — windowed historical backfill
  (`backfill_history`), normalisation (`process_data`), the dedup/merge +
  flush pipeline (`flush_buffer`);
- `src/ingest/main.py` — the incremental poller (`hourly_job`,
  `write_to_influx`) and the startup readiness loop in `__main__`.

Timestamps are modelled as integers (milliseconds since the epoch),
metric values as `Option ℚ` (`none` models a missing/null value, which
pandas carries through as NaN).  The destination stores are modelled as
functions from key to optional content, mirroring overwrite-by-path
(CSV files) and upsert-by-time (InfluxDB points).
-/

/-- The five scraped metrics, from the `METRICS` mapping of
`zebrafell_scraper.py`. -/
inductive Metric where
  | temp
  | wind
  | rain
  | press
  | sun
deriving DecidableEq

/-- Iteration order of the `METRICS` dict in the source. -/
def METRICS : List Metric := [.temp, .wind, .rain, .press, .sun]

/-- One record of the raw JSON payload: `{t: timestamp_ms, v: value}`.
A `none` value models a null/missing `v`. -/
structure RawRec where
  t : ℤ
  v : Option ℚ
deriving DecidableEq

/-- One row of a normalised DataFrame: index `datetime_utc` (kept in ms)
and the metric's value column. -/
structure Row where
  t : ℤ
  v : Option ℚ
deriving DecidableEq

/-- `ZebrafellScraper.process_data`: builds a DataFrame from the raw
records, converts `t` to the datetime index and renames the `v` column.
Rows are carried over one-for-one; null values are kept as-is (the code
has no `dropna` and no coercion of nulls). The column rename has no
counterpart in this row model. -/
def processData (raw : List RawRec) : List Row :=
  raw.map fun r => ⟨r.t, r.v⟩

/-- Helper for `dedupFirst`: drop a row whose timestamp was already seen
(`seen` accumulates the timestamps kept so far). -/
def dedupFirstAux : List ℤ → List Row → List Row
  | _, [] => []
  | seen, r :: rs =>
      if r.t ∈ seen then dedupFirstAux seen rs
      else r :: dedupFirstAux (r.t :: seen) rs

/-- `combined_df[~combined_df.index.duplicated(keep="first")]`: keep the
first occurrence of every timestamp, in original order. -/
def dedupFirst (rows : List Row) : List Row :=
  dedupFirstAux [] rows

/-- Row comparison by timestamp, the sort key of `sort_index`. -/
def rowLe (a b : Row) : Prop := a.t ≤ b.t

instance : DecidableRel rowLe := fun a b =>
  inferInstanceAs (Decidable (a.t ≤ b.t))

instance : IsTotal Row rowLe := ⟨fun a b => Int.le_total a.t b.t⟩

instance : IsTrans Row rowLe := ⟨fun _ _ _ h h2 => le_trans h h2⟩

/-- `combined_df.sort_index()`: sort ascending by timestamp.  After
dedup the timestamps are distinct, so any correct sort produces this
order. -/
def sortRows (rows : List Row) : List Row :=
  List.insertionSort rowLe rows

/-- The rows `flush_buffer` writes for one metric: concatenate the
buffered chunks, drop duplicate timestamps keeping the first occurrence,
then sort chronologically. -/
def flushedRows (chunks : List (List Row)) : List Row :=
  sortRows (dedupFirst chunks.flatten)

/-- Calendar day of an epoch-ms timestamp
(`strftime("%Y-%m-%d")` collapses a timestamp to its day). -/
def dayOf (ts : ℤ) : ℤ := Int.fdiv ts 86400000

/-- The CSV data lake: one optional row list per
`(metric, calendar day)` file path. -/
def Store : Type := Metric × ℤ → Option (List Row)

/-- `combined_df.to_csv(filename)` overwrites the file at `k`. -/
def upsert (st : Store) (k : Metric × ℤ) (rows : List Row) : Store :=
  fun k2 => if k2 = k then some rows else st k2

/-- The key and content `flush_buffer` would write for a chunk list:
`none` when the chunk list is empty (the `continue` branch) or when the
combined frame is empty (in the source this would raise on
`index[-1]`; it is unreachable because only non-empty frames are
buffered). -/
def flushResult (chunks : List (List Row)) : Option (ℤ × List Row) :=
  if chunks.isEmpty then none
  else (flushedRows chunks).getLast?.map fun last => (dayOf last.t, flushedRows chunks)

/-- One iteration of the `flush_buffer` loop: save one metric's chunks
to the path named after the calendar day of the combined frame's last
(greatest) timestamp. -/
def flushOne (st : Store) (m : Metric) (chunks : List (List Row)) : Store :=
  match flushResult chunks with
  | none => st
  | some (d, rows) => upsert st (m, d) rows

/-- The flush-time buffer: the list of fetched chunks per metric
(`monthly_buffer`). -/
def Buffer : Type := Metric → List (List Row)

/-- `ZebrafellScraper.flush_buffer`: flush every metric's chunks. -/
def flushBuffer (st : Store) (buf : Buffer) : Store :=
  METRICS.foldl (fun s m => flushOne s m (buf m)) st

/-- The backward window planner of `backfill_history` (lines 131-143):
the sequence of anchors `current_date` visited by the
`while current_date > end_date` loop, each step moving back by `span`
days.  The loop body runs only when the anchor is still past the stop
and the span is positive (the source always uses `span = 7`; with a
non-positive span the source loop would not terminate, so the guard
also requires `0 < span`). -/
def planWindows (start stop span : ℤ) : List ℤ :=
  if _h : stop < start ∧ 0 < span then
    start :: planWindows (start - span) stop span
  else []
termination_by (start - stop).toNat
decreasing_by
  simp_wf
  omega

/-- The per-window fetch outcome for each metric: `none` models
`fetch_chunk` returning `None` after the transport's retries are
exhausted (the `except` branch), `some raw` a successful JSON payload
(possibly empty). -/
def Fetch : Type := Metric → Option (List RawRec)

/-- The inner `for metric_key in METRICS` loop of one
`backfill_history` window iteration: a metric's chunk list grows by the
processed frame exactly when the fetch succeeded (`if raw_data:`, so an
empty payload is also skipped) and the processed frame is non-empty
(`if not df.empty:`). -/
def windowStep (buf : Buffer) (f : Fetch) : Buffer :=
  fun m =>
    match f m with
    | none => buf m
    | some raw =>
        if raw.isEmpty then buf m
        else if (processData raw).isEmpty then buf m
        else buf m ++ [processData raw]

/-- Driver state of the backfill loop: the per-metric buffer, the CSV
store, and a count of intermediate (threshold-triggered) flushes. -/
structure BState where
  buf : Buffer
  store : Store
  interFlushes : ℕ

/-- One full iteration of the `while current_date > end_date` loop
after the fetches: update the buffers, then flush and reset every
buffer when the `temp` buffer holds at least 4 chunks
(`if len(monthly_buffer["temp"]) >= 4`). -/
def stepWindow (s : BState) (f : Fetch) : BState :=
  if 4 ≤ (windowStep s.buf f Metric.temp).length then
    { buf := fun _ => [], store := flushBuffer s.store (windowStep s.buf f),
      interFlushes := s.interFlushes + 1 }
  else
    { s with buf := windowStep s.buf f }

/-- The backfill loop body over a finite list of window fetch outcomes,
starting from empty buffers. -/
def backfillLoop (fetches : List Fetch) (st : Store) : BState :=
  fetches.foldl stepWindow ⟨fun _ => [], st, 0⟩

/-- `backfill_history`: the loop followed by the final forced
`flush_buffer`. -/
def backfillRun (fetches : List Fetch) (st : Store) : Store :=
  let s := backfillLoop fetches st
  flushBuffer s.store s.buf

/-- One InfluxDB point built by `write_to_influx`: measurement
`weather`, tag `source=open_meteo`, three fields, keyed by `time`. -/
structure Point where
  time : ℤ
  temperature : ℚ
  pressure : ℚ
  wind_speed : ℚ
deriving DecidableEq

/-- The InfluxDB bucket: the point stored at each time, for the fixed
measurement/tag pair of this program.  InfluxDB upserts by
(measurement, tags, time). -/
def InfluxStore : Type := ℤ → Option Point

/-- Batch write of a point list: later points override earlier ones at
the same time (upsert-by-key). -/
def writePoints (st : InfluxStore) (pts : List Point) : InfluxStore :=
  pts.foldl (fun s p => fun t => if t = p.time then some p else s t) st

/-- `write_to_influx(df)` with write outcome `ok`: returns the bucket
state afterwards.  `none`/empty frames are skipped; on a write error the
exception is caught and logged, the bucket is unchanged, and the points
are discarded — the function keeps no pending state. -/
def writeToInflux (st : InfluxStore) (df : Option (List Point)) (ok : Bool) : InfluxStore :=
  match df with
  | none => st
  | some pts =>
      if pts.isEmpty then st
      else if ok then writePoints st pts else st

/-- `hourly_job` / the write half of `initial_backfill`: fetch then
write; `fetched = none` models a fetch error, `ok` the write outcome. -/
def hourlyJob (st : InfluxStore) (fetched : Option (List Point)) (ok : Bool) : InfluxStore :=
  writeToInflux st fetched ok

/-- Events of the `__main__` startup sequence of `main.py`. -/
inductive StartupEvent where
  | probeFail
  | probeOk
  | bootstrap
deriving DecidableEq

/-- The `for _ in range(10)` readiness loop: probe the store's health;
`break` on the first success, otherwise sleep 5 seconds (not modelled)
and try again, for at most 10 attempts. -/
def probeTrace (health : ℕ → Bool) : ℕ → ℕ → List StartupEvent
  | 0, _ => []
  | k + 1, i =>
      if health i then [StartupEvent.probeOk]
      else StartupEvent.probeFail :: probeTrace health k (i + 1)

/-- The whole startup sequence: after the readiness loop ends — by
`break` or by exhausting its 10 attempts — control always falls
through to `initial_backfill()` (Bootstrapping). -/
def startupTrace (health : ℕ → Bool) : List StartupEvent :=
  probeTrace health 10 0 ++ [StartupEvent.bootstrap]

/-- The chunks a metric accumulates over a list of window fetch
outcomes when no intermediate flush intervenes: one processed frame per
successful non-empty fetch, in window order. -/
def chunksFor (m : Metric) (fetches : List Fetch) : List (List Row) :=
  fetches.filterMap fun f =>
    match f m with
    | none => none
    | some raw =>
        if raw.isEmpty then none
        else if (processData raw).isEmpty then none
        else some (processData raw)

theorem flushOne_apply (st : Store) (m : Metric) (chunks : List (List Row))
    (m2 : Metric) (d : ℤ) :
    flushOne st m chunks (m2, d) =
      (match flushResult chunks with
       | none => st (m2, d)
       | some (d0, rows) => if m2 = m ∧ d = d0 then some rows else st (m2, d)) := by
  unfold flushOne
  cases hfr : flushResult chunks with
  | none => rfl
  | some p =>
      obtain ⟨d0, rows⟩ := p
      show upsert st (m, d0) rows (m2, d) = _
      simp only [upsert, Prod.mk.injEq]

theorem flushBuffer_apply (st : Store) (buf : Buffer) (m : Metric) (d : ℤ) :
    flushBuffer st buf (m, d) =
      (match flushResult (buf m) with
       | none => st (m, d)
       | some (d0, rows) => if d = d0 then some rows else st (m, d)) := by
  cases m <;>
    simp only [flushBuffer, METRICS, List.foldl, flushOne_apply] <;>
    cases flushResult (buf .temp) <;>
    cases flushResult (buf .wind) <;>
    cases flushResult (buf .rain) <;>
    cases flushResult (buf .press) <;>
    cases flushResult (buf .sun) <;>
    simp

theorem mem_t_dedupFirstAux {a : ℤ} :
    ∀ (seen : List ℤ) (l : List Row),
      a ∈ (dedupFirstAux seen l).map Row.t → a ∉ seen := by
  intro seen l
  induction l generalizing seen with
  | nil => simp [dedupFirstAux]
  | cons r rs ih =>
      intro hmem
      by_cases hs : r.t ∈ seen
      · exact ih seen (by simpa [dedupFirstAux, hs] using hmem)
      · have he : dedupFirstAux seen (r :: rs) = r :: dedupFirstAux (r.t :: seen) rs := by
          simp [dedupFirstAux, hs]
        rw [he, List.map_cons, List.mem_cons] at hmem
        rcases hmem with h | h
        · exact h ▸ hs
        · intro hc
          exact ih (r.t :: seen) h (List.mem_cons_of_mem _ hc)

theorem nodup_dedupFirstAux :
    ∀ (seen : List ℤ) (l : List Row), ((dedupFirstAux seen l).map Row.t).Nodup := by
  intro seen l
  induction l generalizing seen with
  | nil => simp [dedupFirstAux]
  | cons r rs ih =>
      by_cases hs : r.t ∈ seen
      · simpa [dedupFirstAux, hs] using ih seen
      · have he : dedupFirstAux seen (r :: rs) = r :: dedupFirstAux (r.t :: seen) rs := by
          simp [dedupFirstAux, hs]
        rw [he, List.map_cons, List.nodup_cons]
        refine ⟨fun hmem => ?_, ih (r.t :: seen)⟩
        exact mem_t_dedupFirstAux (r.t :: seen) rs hmem (List.mem_cons_self _ _)

theorem nodup_dedupFirst (l : List Row) : ((dedupFirst l).map Row.t).Nodup :=
  nodup_dedupFirstAux [] l

theorem sortRows_perm (l : List Row) : List.Perm (sortRows l) l :=
  List.perm_insertionSort rowLe l

theorem sortRows_sorted (l : List Row) : List.Sorted rowLe (sortRows l) :=
  List.sorted_insertionSort rowLe l

/-- After `flush_buffer`'s dedup, no two rows share a timestamp. -/
theorem flushedRows_t_nodup (chunks : List (List Row)) :
    ((flushedRows chunks).map Row.t).Nodup :=
  (((sortRows_perm (dedupFirst chunks.flatten)).map Row.t).nodup_iff).mpr
    (nodup_dedupFirst chunks.flatten)

/-- After `flush_buffer`'s `sort_index`, rows are in ascending timestamp
order. -/
theorem flushedRows_sorted (chunks : List (List Row)) :
    List.Sorted rowLe (flushedRows chunks) :=
  sortRows_sorted (dedupFirst chunks.flatten)

theorem sorted_getLast_max :
    ∀ {l : List Row} {x : Row}, List.Sorted rowLe l → l.getLast? = some x →
      ∀ r ∈ l, r.t ≤ x.t := by
  intro l
  induction l with
  | nil => intro x _ h; simp at h
  | cons a rest ih =>
      intro x hsort hlast r hr
      cases rest with
      | nil =>
          simp only [List.getLast?_singleton, Option.some.injEq] at hlast
          rcases List.mem_singleton.mp hr with h
          rw [h, hlast]
      | cons b t =>
          rw [List.getLast?_cons_cons] at hlast
          obtain ⟨ha, hrest⟩ := List.sorted_cons.mp hsort
          rcases List.mem_cons.mp hr with h | h
          · calc r.t = a.t := by rw [h]
              _ ≤ b.t := ha b (List.mem_cons_self _ _)
              _ ≤ x.t := ih hrest hlast b (List.mem_cons_self _ _)
          · exact ih hrest hlast r h

theorem planWindows_length (a b s : ℤ) (hs : 0 < s) :
    (planWindows a b s).length = ((a - b).toNat + s.toNat - 1) / s.toNat := by
  induction a, b, s using planWindows.induct with
  | case1 a b s h ih =>
      rw [planWindows, dif_pos h, List.length_cons, ih hs]
      have hd : 1 ≤ (a - b).toNat := by omega
      have hn : 1 ≤ s.toNat := by omega
      have hkey : (a - s - b).toNat = (a - b).toNat - s.toNat := by omega
      rw [hkey]
      rcases le_or_lt s.toNat (a - b).toNat with hc | hc
      · have e1 : (a - b).toNat - s.toNat + s.toNat - 1 = (a - b).toNat - 1 := by omega
        have e2 : (a - b).toNat + s.toNat - 1 = (a - b).toNat - 1 + s.toNat := by omega
        rw [e1, e2, Nat.add_div_right _ (by omega)]
      · have e1 : (a - b).toNat - s.toNat + s.toNat - 1 = s.toNat - 1 := by omega
        have e2 : (a - b).toNat + s.toNat - 1 = (a - b).toNat - 1 + s.toNat := by omega
        rw [e1, e2, Nat.add_div_right _ (by omega),
          Nat.div_eq_of_lt (by omega), Nat.div_eq_of_lt (by omega)]
  | case2 a b s h =>
      rw [planWindows, dif_neg h]
      have h0 : (a - b).toNat = 0 := by omega
      rw [h0, List.length_nil]
      exact (Nat.div_eq_of_lt (by omega)).symm

/-- C1 counterexample: buffering `(ts=0, 5.0)` and then `(ts=0, 26/5)`
(that is, 5.2) for the same metric and flushing keeps the FIRST buffered
value 5.0, not the incoming 5.2 — `flush_buffer` dedups with
`keep="first"`.  The claim, which says the incoming value wins, is false
on this input; moreover `flush_buffer` maintains no divergence counter
at all. -/
theorem C1_counterexample :
    flushedRows [[⟨0, some 5⟩], [⟨0, some (26/5)⟩]] = [⟨0, some 5⟩] ∧
    flushedRows [[⟨0, some 5⟩], [⟨0, some (26/5)⟩]] ≠ [⟨0, some (26/5)⟩] := by
  constructor
  · norm_num [flushedRows, dedupFirst, dedupFirstAux, sortRows, List.insertionSort]
  · norm_num [flushedRows, dedupFirst, dedupFirstAux, sortRows, List.insertionSort]

/-- C1 (amended): when two buffered observations for the same metric
share a timestamp but carry differing values, the merged result after
flush keeps the EARLIER buffered (first-fetched) value; no divergence
counter exists in the code, so none is incremented. -/
theorem C1_first_value_wins (t : ℤ) (v1 v2 : Option ℚ) (_hne : v1 ≠ v2) :
    flushedRows [[⟨t, v1⟩], [⟨t, v2⟩]] = [⟨t, v1⟩] := by
  simp [flushedRows, dedupFirst, dedupFirstAux, sortRows,
    List.insertionSort]

theorem C1_first_value_wins_witness :
    (some (5 : ℚ) ≠ some (26/5 : ℚ)) ∧
    flushedRows [[⟨0, some 5⟩], [⟨0, some (26/5)⟩]] = [⟨0, some 5⟩] :=
  ⟨by norm_num, C1_first_value_wins 0 (some 5) (some (26/5)) (by norm_num)⟩

/-- C2: for every metric and every flush, the flushed data contains no
two rows with the same timestamp and is sorted in ascending timestamp
order; and merging the two overlapping windows `[0,7]` and `[5,12]`
with identical values at the overlap yields exactly the 13 distinct
timestamps `0..12`. -/
theorem C2_flush_nodup_sorted :
    (∀ chunks : List (List Row),
        ((flushedRows chunks).map Row.t).Nodup ∧
        List.Sorted (· ≤ ·) ((flushedRows chunks).map Row.t)) ∧
    (flushedRows
        [[⟨0, some 0⟩, ⟨1, some 1⟩, ⟨2, some 2⟩, ⟨3, some 3⟩,
          ⟨4, some 4⟩, ⟨5, some 5⟩, ⟨6, some 6⟩, ⟨7, some 7⟩],
         [⟨5, some 5⟩, ⟨6, some 6⟩, ⟨7, some 7⟩, ⟨8, some 8⟩,
          ⟨9, some 9⟩, ⟨10, some 10⟩, ⟨11, some 11⟩, ⟨12, some 12⟩]]).map Row.t =
      [0, 1, 2, 3, 4, 5, 6, 7, 8, 9, 10, 11, 12] := by
  refine ⟨fun chunks => ⟨flushedRows_t_nodup chunks, ?_⟩, by decide⟩
  exact (flushedRows_sorted chunks).map Row.t (fun a b h => h)

/-- C7 counterexample: a raw record with a null value is NOT dropped by
`process_data` — the row survives normalisation with its null value
(the claim says it would be dropped, that is, the result would be
empty); nor does the code keep any drop counter. -/
theorem C7_counterexample :
    processData [⟨0, none⟩] = [⟨0, none⟩] ∧
    (processData [⟨0, none⟩]).length = 1 := by
  constructor
  · rfl
  · rfl

/-- C7 (amended): the normalizer keeps every raw record, one row per
record; missing/null values are carried through unchanged (neither
dropped nor coerced to zero), and no drop counter exists. -/
theorem C7_nulls_kept (raw : List RawRec) :
    (processData raw).map Row.v = raw.map RawRec.v ∧
    (processData raw).length = raw.length := by
  constructor
  · simp [processData, List.map_map]
  · simp [processData]

/-- C3: the backward window planner always terminates (it is a total
function) and produces a finite window list; from anchor `now` with a
7-day span and stop `now - 365` days it produces exactly
`ceil(365/7) = 53` windows, and for any anchor, stop and span with
`stop_time >= start_anchor` it produces none. -/
theorem C3_planner_terminates :
    (∀ now : ℤ, (planWindows now (now - 365) 7).length = 53) ∧
    (∀ start stop span : ℤ, start ≤ stop → planWindows start stop span = []) := by
  constructor
  · intro now
    rw [planWindows_length _ _ _ (by norm_num)]
    have h1 : now - (now - 365) = 365 := by ring
    rw [h1]
    rfl
  · intro s t sp h
    rw [planWindows, dif_neg]
    intro hc
    omega

theorem C3_planner_terminates_witness :
    (planWindows 0 (0 - 365) 7).length = 53 ∧ planWindows 0 5 7 = [] :=
  ⟨C3_planner_terminates.1 0, C3_planner_terminates.2 0 5 7 (by norm_num)⟩

/-- C4 counterexample: the persistence write of the batch at time 0
fails (`ok = false`); `write_to_influx` swallows the error and discards
the batch, so after the next successful flush (the batch at time 100)
the store holds nothing at time 0 — the buffered data was NOT retained
and retried, contradicting the claim that it is never silently lost. -/
theorem C4_counterexample :
    hourlyJob (hourlyJob (fun _ => none) (some [⟨0, 1, 2, 3⟩]) false)
      (some [⟨100, 4, 5, 6⟩]) true 0 = none ∧
    hourlyJob (hourlyJob (fun _ => none) (some [⟨0, 1, 2, 3⟩]) false)
      (some [⟨100, 4, 5, 6⟩]) true 100 = some ⟨100, 4, 5, 6⟩ := by
  constructor
  · rfl
  · rfl

/-- C4 (amended): a failed persistence write leaves the store unchanged
and the failed batch is discarded, not retained — `write_to_influx`
catches the error, logs it and returns, keeping no pending state, so a
later flush behaves exactly as if the failed flush had never been
attempted and writes only its own newly fetched data.  (In
`flush_buffer` of the scraper a write failure is not caught at all: the
exception propagates and aborts the run, with nothing retried.) -/
theorem C4_failed_flush_discards (st : InfluxStore) (df df2 : Option (List Point)) :
    writeToInflux st df false = st ∧
    hourlyJob (hourlyJob st df false) df2 true = hourlyJob st df2 true := by
  have h : writeToInflux st df false = st := by
    cases df with
    | none => rfl
    | some pts =>
        by_cases hp : pts.isEmpty <;> simp [writeToInflux, hp]
  refine ⟨h, ?_⟩
  show hourlyJob (writeToInflux st df false) df2 true = hourlyJob st df2 true
  rw [h]

/-- C5: when the fetch for `wind` at a window exhausts its retries
(`fetch_chunk` returns `None`), that window's buffer update leaves the
`wind` buffer untouched, while every metric whose fetch succeeded with
a non-empty payload still gets its processed chunk appended; the loop
body itself never aborts (the update is a total function on all five
metrics). -/
theorem C5_transient_failure_skips (buf : Buffer) (f : Fetch)
    (hw : f Metric.wind = none) :
    windowStep buf f Metric.wind = buf Metric.wind ∧
    ∀ (m : Metric) (raw : List RawRec), f m = some raw → raw ≠ [] →
      windowStep buf f m = buf m ++ [processData raw] := by
  constructor
  · simp [windowStep, hw]
  · intro m raw hm hne
    cases raw with
    | nil => exact absurd rfl hne
    | cons a l => simp [windowStep, hm, processData]

theorem C5_transient_failure_skips_witness :
    windowStep (fun _ => [])
      (fun m => if m = Metric.wind then none else some [⟨0, some 1⟩])
      Metric.wind = [] ∧
    windowStep (fun _ => [])
      (fun m => if m = Metric.wind then none else some [⟨0, some 1⟩])
      Metric.temp = [] ++ [processData [⟨0, some 1⟩]] := by
  have h := C5_transient_failure_skips (fun _ => [])
    (fun m => if m = Metric.wind then none else some [⟨0, some 1⟩]) rfl
  exact ⟨h.1, h.2 Metric.temp [⟨0, some 1⟩] rfl (by simp)⟩

theorem flushBuffer_apply_none (st : Store) (buf : Buffer) (m : Metric) (d : ℤ)
    (hfr : flushResult (buf m) = none) :
    flushBuffer st buf (m, d) = st (m, d) := by
  have h := flushBuffer_apply st buf m d
  rw [hfr] at h
  exact h

theorem flushBuffer_apply_some (st : Store) (buf : Buffer) (m : Metric)
    (d d0 : ℤ) (rows : List Row)
    (hfr : flushResult (buf m) = some (d0, rows)) :
    flushBuffer st buf (m, d) = if d = d0 then some rows else st (m, d) := by
  have h := flushBuffer_apply st buf m d
  rw [hfr] at h
  exact h

theorem writePoints_apply (st : InfluxStore) (pts : List Point) (t : ℤ) :
    writePoints st pts t =
      match pts.reverse.find? (fun p => decide (p.time = t)) with
      | some p => some p
      | none => st t := by
  induction pts generalizing st with
  | nil => rfl
  | cons p ps ih =>
      show writePoints (fun t2 => if t2 = p.time then some p else st t2) ps t = _
      rw [ih, List.reverse_cons, List.find?_append]
      cases h : ps.reverse.find? (fun q => decide (q.time = t)) with
      | some q => simp
      | none =>
          rw [Option.none_or]
          by_cases ht : t = p.time
          · simp [List.find?, ht]
          · have hpt : ¬ (p.time = t) := fun hc => ht hc.symm
            simp [List.find?, ht, hpt]

theorem probeTrace_length_le (health : ℕ → Bool) :
    ∀ (k i : ℕ), (probeTrace health k i).length ≤ k := by
  intro k
  induction k with
  | zero => intro i; simp [probeTrace]
  | succ n ih =>
      intro i
      by_cases h : health i
      · simp [probeTrace, h]
      · have hih := ih (i + 1)
        simp only [probeTrace, h, Bool.false_eq_true, if_false, List.length_cons]
        omega

theorem backfillLoop_aux (fetches : List Fetch) :
    ∀ s : BState,
      (∀ f ∈ fetches, f Metric.temp = none ∨ f Metric.temp = some []) →
      s.buf Metric.temp = [] →
      (fetches.foldl stepWindow s).interFlushes = s.interFlushes ∧
      (fetches.foldl stepWindow s).store = s.store ∧
      ∀ m, (fetches.foldl stepWindow s).buf m = s.buf m ++ chunksFor m fetches := by
  induction fetches with
  | nil =>
      intro s _ _
      exact ⟨rfl, rfl, fun m => by simp [chunksFor]⟩
  | cons f fs ih =>
      intro s hall htemp
      have hf : f Metric.temp = none ∨ f Metric.temp = some [] :=
        hall f (List.mem_cons_self _ _)
      have htempstep : windowStep s.buf f Metric.temp = [] := by
        rcases hf with h | h
        · simp [windowStep, h, htemp]
        · simp [windowStep, h, htemp]
      have hlen : ¬ 4 ≤ (windowStep s.buf f Metric.temp).length := by
        rw [htempstep]
        simp
      have hstep : stepWindow s f = { s with buf := windowStep s.buf f } := by
        unfold stepWindow
        rw [if_neg hlen]
      rw [List.foldl_cons, hstep]
      obtain ⟨h1, h2, h3⟩ :=
        ih { s with buf := windowStep s.buf f }
          (fun g hg => hall g (List.mem_cons_of_mem _ hg)) htempstep
      refine ⟨h1, h2, fun m => ?_⟩
      rw [h3 m]
      show windowStep s.buf f m ++ chunksFor m fs = s.buf m ++ chunksFor m (f :: fs)
      cases hfm : f m with
      | none => simp [windowStep, chunksFor, hfm, List.filterMap_cons]
      | some raw =>
          by_cases hre : raw = []
          · subst hre
            simp [windowStep, chunksFor, hfm, List.filterMap_cons]
          · by_cases hpe : processData raw = []
            · simp [windowStep, chunksFor, hfm, List.filterMap_cons, hre, hpe]
            · simp [windowStep, chunksFor, hfm, List.filterMap_cons, hre, hpe]

/-- C6: flushing is idempotent.  For the CSV sink, flushing the same
buffer snapshot twice in a row produces the same stored state as
flushing it once (`to_csv` overwrites the file at the same path with
the same content).  For the InfluxDB sink, writing the same frame twice
via `write_to_influx` leaves the same bucket state (points upsert by
time, never append-duplicate). -/
theorem C6_flush_idempotent :
    (∀ (st : Store) (buf : Buffer),
        flushBuffer (flushBuffer st buf) buf = flushBuffer st buf) ∧
    (∀ (st : InfluxStore) (df : Option (List Point)),
        writeToInflux (writeToInflux st df true) df true =
          writeToInflux st df true) := by
  constructor
  · intro st buf
    funext k
    obtain ⟨m, d⟩ := k
    cases hfr : flushResult (buf m) with
    | none => rw [flushBuffer_apply_none (flushBuffer st buf) buf m d hfr]
    | some p =>
        obtain ⟨d0, rows⟩ := p
        rw [flushBuffer_apply_some (flushBuffer st buf) buf m d d0 rows hfr]
        by_cases hd : d = d0
        · rw [if_pos hd, flushBuffer_apply_some st buf m d d0 rows hfr, if_pos hd]
        · rw [if_neg hd]
  · intro st df
    cases df with
    | none => rfl
    | some pts =>
        by_cases hp : pts.isEmpty
        · simp [writeToInflux, hp]
        · have hW : ∀ s : InfluxStore,
              writeToInflux s (some pts) true = writePoints s pts := by
            intro s
            simp [writeToInflux, hp]
          rw [hW, hW]
          funext t
          rw [writePoints_apply, writePoints_apply]
          cases h : pts.reverse.find? (fun p => decide (p.time = t)) <;> rfl

/-- C8 counterexample: with the destination store never becoming
healthy, the startup loop makes its 10 probe attempts and the process
then proceeds to Bootstrapping anyway (`initial_backfill()` follows the
loop unconditionally) — it does not become fatal at that point,
contradicting the claim. -/
theorem C8_counterexample :
    startupTrace (fun _ => false) =
      List.replicate 10 StartupEvent.probeFail ++ [StartupEvent.bootstrap] ∧
    StartupEvent.bootstrap ∈ startupTrace (fun _ => false) := by
  constructor
  · rfl
  · exact List.mem_append_right _ (List.mem_singleton_self _)

/-- C8 (amended): at startup the process blocks and retries the
readiness probe with fixed backoff for at most 10 attempts, stopping
early on the first healthy probe; but after the loop — healthy or not —
it always proceeds to Bootstrapping.  Exhausting the attempts is not
fatal by itself (a still-unavailable store then surfaces as an uncaught
error inside Bootstrapping). -/
theorem C8_startup_proceeds (health : ℕ → Bool) :
    StartupEvent.bootstrap ∈ startupTrace health ∧
    (startupTrace health).length ≤ 11 ∧
    (health 0 = true →
      startupTrace health = [StartupEvent.probeOk, StartupEvent.bootstrap]) := by
  refine ⟨List.mem_append_right _ (List.mem_singleton_self _), ?_, ?_⟩
  · have h := probeTrace_length_le health 10 0
    simp only [startupTrace, List.length_append, List.length_singleton]
    omega
  · intro h0
    have hp : probeTrace health 10 0 = [StartupEvent.probeOk] := by
      show (if health 0 then [StartupEvent.probeOk]
            else StartupEvent.probeFail :: probeTrace health 9 1) = _
      rw [if_pos h0]
    simp [startupTrace, hp]

theorem C8_startup_proceeds_witness :
    StartupEvent.bootstrap ∈ startupTrace (fun _ => true) ∧
    startupTrace (fun _ => true) =
      [StartupEvent.probeOk, StartupEvent.bootstrap] :=
  ⟨(C8_startup_proceeds (fun _ => true)).1,
   (C8_startup_proceeds (fun _ => true)).2.2 rfl⟩

/-- C9: the intermediate flush decision of `backfill_history` looks
only at the `temp` buffer — a window step triggers a flush of ALL
buffers exactly when, after the step, the `temp` buffer holds at least
4 chunks; consequently, in a run whose `temp` fetches all fail or come
back empty, no intermediate flush ever happens (the store is untouched
by the loop) while every other metric's buffer accumulates one chunk
per successful non-empty fetch, left for the final forced flush. -/
theorem C9_flush_gated_by_temp :
    (∀ (s : BState) (f : Fetch),
        ((stepWindow s f).interFlushes = s.interFlushes + 1 ↔
          4 ≤ (windowStep s.buf f Metric.temp).length)) ∧
    (∀ (fetches : List Fetch) (st : Store),
        (∀ f ∈ fetches, f Metric.temp = none ∨ f Metric.temp = some []) →
        (backfillLoop fetches st).interFlushes = 0 ∧
        (backfillLoop fetches st).store = st ∧
        ∀ m, (backfillLoop fetches st).buf m = chunksFor m fetches) := by
  constructor
  · intro s f
    unfold stepWindow
    by_cases h : 4 ≤ (windowStep s.buf f Metric.temp).length
    · rw [if_pos h]
      simp [h]
    · rw [if_neg h]
      simp [h]
  · intro fetches st hall
    obtain ⟨h1, h2, h3⟩ :=
      backfillLoop_aux fetches ⟨fun _ => [], st, 0⟩ hall rfl
    exact ⟨h1, h2, fun m => by rw [backfillLoop, h3 m, List.nil_append]⟩

theorem C9_flush_gated_by_temp_witness :
    (backfillLoop
        [fun m => if m = Metric.wind then some [⟨0, some 1⟩] else none,
         fun m => if m = Metric.wind then some [⟨0, some 1⟩] else none]
        (fun _ => none)).interFlushes = 0 ∧
    (backfillLoop
        [fun m => if m = Metric.wind then some [⟨0, some 1⟩] else none,
         fun m => if m = Metric.wind then some [⟨0, some 1⟩] else none]
        (fun _ => none)).buf Metric.wind =
      chunksFor Metric.wind
        [fun m => if m = Metric.wind then some [⟨0, some 1⟩] else none,
         fun m => if m = Metric.wind then some [⟨0, some 1⟩] else none] := by
  have h := C9_flush_gated_by_temp.2
    [fun m => if m = Metric.wind then some [⟨0, some 1⟩] else none,
     fun m => if m = Metric.wind then some [⟨0, some 1⟩] else none]
    (fun _ => none)
    (by
      intro f hf
      rcases List.mem_cons.mp hf with rfl | hf2
      · exact Or.inl rfl
      · rcases List.mem_singleton.mp hf2 with rfl
        exact Or.inl rfl)
  exact ⟨h.1, h.2.2 Metric.wind⟩

/-- C10: the destination file path of a flush is `metric_DAY.csv` where
DAY is the calendar day of the last row of the sorted frame — its
maximum timestamp (first conjunct: every flushed row's timestamp is at
most the last row's).  Two flush units for the same metric whose
maximum timestamps fall on the same calendar day therefore write to the
same path, and the second `to_csv` replaces the first file wholesale
(third conjunct: after both flushes the path holds exactly the second
flush's rows). -/
theorem C10_same_day_overwrites (st : Store) (m : Metric)
    (c1 c2 : List (List Row)) (l1 l2 : Row)
    (hne1 : c1 ≠ []) (hne2 : c2 ≠ [])
    (h1 : (flushedRows c1).getLast? = some l1)
    (h2 : (flushedRows c2).getLast? = some l2)
    (hday : dayOf l1.t = dayOf l2.t) :
    (∀ r ∈ flushedRows c1, r.t ≤ l1.t) ∧
    flushOne st m c1 (m, dayOf l1.t) = some (flushedRows c1) ∧
    flushOne (flushOne st m c1) m c2 (m, dayOf l1.t) = some (flushedRows c2) := by
  have hfr1 : flushResult c1 = some (dayOf l1.t, flushedRows c1) := by
    unfold flushResult
    rw [if_neg (by simpa using hne1), h1]
    rfl
  have hfr2 : flushResult c2 = some (dayOf l2.t, flushedRows c2) := by
    unfold flushResult
    rw [if_neg (by simpa using hne2), h2]
    rfl
  refine ⟨fun r hr => sorted_getLast_max (flushedRows_sorted c1) h1 r hr, ?_, ?_⟩
  · rw [flushOne_apply, hfr1]
    simp
  · rw [flushOne_apply, hfr2]
    simp [hday]

theorem C10_same_day_overwrites_witness :
    flushOne (fun _ => none) Metric.temp [[⟨0, some 1⟩]] (Metric.temp, dayOf 0) =
      some (flushedRows [[⟨0, some 1⟩]]) ∧
    flushOne (flushOne (fun _ => none) Metric.temp [[⟨0, some 1⟩]])
        Metric.temp [[⟨1, some 2⟩]] (Metric.temp, dayOf 0) =
      some (flushedRows [[⟨1, some 2⟩]]) := by
  have h := C10_same_day_overwrites (fun _ => none) Metric.temp
    [[⟨0, some 1⟩]] [[⟨1, some 2⟩]] ⟨0, some 1⟩ ⟨1, some 2⟩
    (by decide) (by decide) (by decide) (by decide) (by decide)
  exact ⟨h.2.1, h.2.2⟩
